import Mathlib

/-!
Verification of the in-memory users CRUD store (`UsersState` in src/context.rs)
and of the row transformation performed by the database-backed todo update
(`TodoRepoPostgres::update` in src/persistence.rs).

The Rust `HashMap<u64, User>` is embedded as an association list with
no duplicate keys (`AList`), whose `lookup`, `insert` (replace-or-add) and
`erase` match `HashMap::get`, `HashMap::insert` and `HashMap::remove`
observationally.  `u64` identifiers are embedded as `Nat`: the counter only
ever increments by one per create, and `u64` overflow in the source would
abort (panic) rather than silently wrap under the crate's test profile, so no
reachable behaviour depends on wrap-around.
-/

/-- The `User` struct of src/context.rs:517-521. -/
structure User where
  id : Nat
  name : String
  email : String
deriving DecidableEq

/-- The `ProtoUser` struct of src/context.rs:524-527 (fields of a create request). -/
structure ProtoUser where
  name : String
  email : String
deriving DecidableEq

/-- The `UserUpdate` struct of src/context.rs:530-533 (a partial update; `none` means absent). -/
structure UserUpdate where
  name : Option String
  email : Option String
deriving DecidableEq

/-- The `HashMap<u64, User>` field, embedded as a duplicate-free association list. -/
abbrev UserMap := AList (fun _ : Nat => User)

/-- The `UsersState` struct of src/context.rs:468-471. -/
structure UsersState where
  users : UserMap
  next_id : Nat

/-- `UsersState::new` (src/context.rs:474-479): empty map, counter at zero. -/
def UsersState.new : UsersState := ⟨∅, 0⟩

/-- `UsersState::get_user` (src/context.rs:481-483): `self.users.get(&id).map(clone)`. -/
def UsersState.get_user (s : UsersState) (id : Nat) : Option User :=
  s.users.lookup id

/-- `UsersState::get_users` (src/context.rs:485-487): `self.users.values().map(clone).collect()`. -/
def UsersState.get_users (s : UsersState) : List User :=
  s.users.entries.map fun e => e.2

/-- `UsersState::create_user` (src/context.rs:489-494): build the record at `next_id`,
insert it, bump the counter, return the record. -/
def UsersState.create_user (s : UsersState) (proto_user : ProtoUser) : User × UsersState :=
  let new_user : User := ⟨s.next_id, proto_user.name, proto_user.email⟩
  (new_user, ⟨s.users.insert s.next_id new_user, s.next_id + 1⟩)

/-- `UsersState::update_user` (src/context.rs:496-509): return `None` when absent,
otherwise merge each supplied field over the current record (`unwrap_or_else` is
`Option.getD`), keep the identifier, and re-insert at `id`. -/
def UsersState.update_user (s : UsersState) (id : Nat) (update : UserUpdate) :
    Option User × UsersState :=
  match s.users.lookup id with
  | none => (none, s)
  | some current_user =>
    let new_user : User :=
      ⟨current_user.id, update.name.getD current_user.name, update.email.getD current_user.email⟩
    (some new_user, ⟨s.users.insert id new_user, s.next_id⟩)

/-- `UsersState::delete_user` (src/context.rs:511-513): `self.users.remove(&id)` removes the
entry and returns the removed record (the value previously at `id`). -/
def UsersState.delete_user (s : UsersState) (id : Nat) : Option User × UsersState :=
  (s.users.lookup id, ⟨s.users.erase id, s.next_id⟩)

/-- One client-visible store operation (the five routed handlers of src/context.rs:448-466). -/
inductive Op where
  | create (proto : ProtoUser)
  | get (id : Nat)
  | list
  | update (id : Nat) (u : UserUpdate)
  | delete (id : Nat)

/-- The state transformation of one operation (`get` and `list` take `&self` and cannot
modify the state; the other three thread the mutated state). -/
def applyOp (s : UsersState) : Op → UsersState
  | .create p => (s.create_user p).2
  | .get _ => s
  | .list => s
  | .update id u => (s.update_user id u).2
  | .delete id => (s.delete_user id).2

/-- Run a sequence of operations from a given state. -/
def runFrom (s : UsersState) (ops : List Op) : UsersState := ops.foldl applyOp s

/-- Run a sequence of operations from the fresh store `UsersState.new`. -/
def run (ops : List Op) : UsersState := runFrom UsersState.new ops

/-- States reachable from a fresh store by some operation sequence. -/
def Reachable (s : UsersState) : Prop := ∃ ops, run ops = s

/-- The identifiers returned by the create operations of a sequence, in order. -/
def createdIds : UsersState → List Op → List Nat
  | _, [] => []
  | s, Op.create p :: rest => (s.create_user p).1.id :: createdIds (s.create_user p).2 rest
  | s, Op.get i :: rest => createdIds (applyOp s (Op.get i)) rest
  | s, Op.list :: rest => createdIds (applyOp s Op.list) rest
  | s, Op.update i u :: rest => createdIds (applyOp s (Op.update i u)) rest
  | s, Op.delete i :: rest => createdIds (applyOp s (Op.delete i)) rest

/-- Every entry's record carries the key it is stored under (the map key equals the
record's `id` field). -/
def Coherent (s : UsersState) : Prop :=
  ∀ e ∈ s.users.entries, e.snd.id = e.fst

/-- The counter strictly dominates every key present in the map. -/
def Bounded (s : UsersState) : Prop :=
  ∀ k ∈ s.users.keys, k < s.next_id

/-- A concrete reachable state used to instantiate hypotheses: one created user. -/
def aliceState : UsersState := run [Op.create ⟨"Alice", "a@x.com"⟩]

/-- One hexadecimal digit, lower case, as emitted by the JSON string escaper. -/
def hexDigit (n : Nat) : Char :=
  if n < 10 then Char.ofNat (48 + n) else Char.ofNat (87 + n)

/-- Escaping of one character inside a JSON string literal as performed by
`serde_json::json!` on a Rust `String`: quote and backslash are escaped, the named
control characters get their short forms, other control characters get `\u00XX`,
everything else passes through. -/
def jsonEscapeChar (c : Char) : String :=
  if c.toNat = 34 then "\\\""
  else if c.toNat = 92 then "\\\\"
  else if c.toNat = 8 then "\\b"
  else if c.toNat = 9 then "\\t"
  else if c.toNat = 10 then "\\n"
  else if c.toNat = 12 then "\\f"
  else if c.toNat = 13 then "\\r"
  else if c.toNat < 32 then "\\u00" ++ String.mk [hexDigit (c.toNat / 16), hexDigit (c.toNat % 16)]
  else String.singleton c

/-- `serde_json::json!(&s)` on a string `s`: the escaped characters between quotes. -/
def jsonEncodeString (s : String) : String :=
  "\"" ++ String.join (s.data.map jsonEscapeChar) ++ "\""

/-- The `MissingUserError` tuple struct of src/context.rs:536 (its one field is the message). -/
structure MissingUserError where
  msg : String
deriving DecidableEq

/-- An HTTP response as far as the core observes it: status, content type, body text. -/
structure HttpResponse where
  status : Nat
  contentType : String
  body : String
deriving DecidableEq

/-- `MissingUserError::into_response` (src/context.rs:538-546): status 404, content type
`application/json`, and the body `format!` of the literal braces and unquoted key
`message:` around the JSON-encoded message string. -/
def MissingUserError.into_response (e : MissingUserError) : HttpResponse :=
  ⟨404, "application/json", "\x7bmessage:" ++ jsonEncodeString e.msg ++ "\x7d"⟩

/-- The routed `get_user` handler (src/context.rs:452-454): the store result, with
`None` turned into `MissingUserError` carrying the empty string. -/
def get_user_route (s : UsersState) (id : Nat) : Except MissingUserError User :=
  match s.get_user id with
  | some u => Except.ok u
  | none => Except.error ⟨""⟩

/-- The routed `update_user` handler (src/context.rs:460-462): result and new state. -/
def update_user_route (s : UsersState) (id : Nat) (updates : UserUpdate) :
    Except MissingUserError User × UsersState :=
  (match (s.update_user id updates).1 with
    | some u => Except.ok u
    | none => Except.error ⟨""⟩,
   (s.update_user id updates).2)

/-- The routed `delete_user` handler (src/context.rs:464-466): result and new state. -/
def delete_user_route (s : UsersState) (id : Nat) : Except MissingUserError User × UsersState :=
  (match (s.delete_user id).1 with
    | some u => Except.ok u
    | none => Except.error ⟨""⟩,
   (s.delete_user id).2)

/-- The `TodoRecord` row struct of src/persistence.rs:224-230; `created_at` is the
`PrimitiveDateTime` column, opaque to all logic here and embedded as a `Nat`. -/
structure TodoRecord where
  id : Int
  title : String
  description : String
  done : Bool
  created_at : Nat
deriving DecidableEq

/-- The `Todo` struct of src/persistence.rs:357-363. -/
structure Todo where
  id : Int
  title : String
  description : String
  done : Bool
deriving DecidableEq

/-- `Todo::from_record` (src/persistence.rs:365-374): drop the `created_at` column. -/
def Todo.from_record (record : TodoRecord) : Todo :=
  ⟨record.id, record.title, record.description, record.done⟩

/-- Modelled from the spec: the row transformation of the statement executed by
`TodoRepoPostgres::update` (src/persistence.rs:288-299), `UPDATE todos SET
title = COALESCE($1, title), description = COALESCE($2, description),
done = COALESCE($3, done) WHERE id = $4 RETURNING *`.  The SQL engine that runs it is
outside src; per the spec each column is overwritten only when the caller supplied a
non-absent value (`COALESCE` keeps the existing column when the parameter is NULL),
while `id` and `created_at` are not in the SET list and are preserved. -/
def coalesceUpdateRow (row : TodoRecord) (title description : Option String)
    (done : Option Bool) : TodoRecord :=
  ⟨row.id,
    match title with | some t => t | none => row.title,
    match description with | some d => d | none => row.description,
    match done with | some d => d | none => row.done,
    row.created_at⟩

/-- Follows the spec's words for partial-update semantics: a field present in the update
overwrites the old field, an absent field carries the old value over unchanged. -/
def specMergeField {α : Type} (supplied : Option α) (old : α) : α :=
  match supplied with
  | some v => v
  | none => old

/-- A partial update leaves the counter untouched (src/context.rs:496-509 never writes
`next_id`). -/
theorem update_user_snd_next_id (s : UsersState) (id : Nat) (u : UserUpdate) :
    (s.update_user id u).2.next_id = s.next_id := by
  cases hl : s.users.lookup id <;> simp [UsersState.update_user, hl]

/-- No operation decreases the counter: `create_user` bumps it by one, the rest leave it. -/
theorem applyOp_next_id_mono (s : UsersState) (op : Op) :
    s.next_id ≤ (applyOp s op).next_id := by
  cases op with
  | create p => exact Nat.le_succ _
  | get i => exact Nat.le_refl _
  | list => exact Nat.le_refl _
  | update i u => exact Nat.le_of_eq (update_user_snd_next_id s i u).symm
  | delete i => exact Nat.le_refl _

/-- Inserting a record that carries its own key preserves key coherence. -/
theorem coherent_insert {m : UserMap} (a : Nat) (u : User) (hu : u.id = a)
    (h : ∀ e ∈ m.entries, e.snd.id = e.fst) :
    ∀ e ∈ (m.insert a u).entries, e.snd.id = e.fst := by
  intro e he
  rw [AList.insert_entries] at he
  rcases List.mem_cons.mp he with h1 | h2
  · subst h1; exact hu
  · exact h e ((List.kerase_sublist a m.entries).subset h2)

/-- Every operation preserves key coherence. -/
theorem coherent_applyOp (s : UsersState) (op : Op) (h : Coherent s) :
    Coherent (applyOp s op) := by
  cases op with
  | create p => exact coherent_insert s.next_id _ rfl h
  | get i => exact h
  | list => exact h
  | update i u =>
    unfold Coherent
    cases hl : s.users.lookup i with
    | none => simp only [applyOp, UsersState.update_user, hl]; exact h
    | some cur =>
      have hmem : (Sigma.mk i cur : Sigma fun _ : Nat => User) ∈ s.users.entries :=
        AList.mem_lookup_iff.mp (by rw [Option.mem_def, hl])
      have hcur : cur.id = i := h _ hmem
      simp only [applyOp, UsersState.update_user, hl]
      exact coherent_insert i _ hcur h
  | delete i =>
    unfold Coherent
    intro e he
    exact h e ((List.kerase_sublist i s.users.entries).subset he)

/-- Inserting at a key below the bound preserves the key bound. -/
theorem bounded_insert {m : UserMap} {n : Nat} (a : Nat) (u : User)
    (ha : a < n) (h : ∀ k ∈ m.keys, k < n) :
    ∀ k ∈ (m.insert a u).keys, k < n := by
  intro k hk
  simp only [AList.keys, AList.insert_entries, List.keys_cons] at hk
  rcases List.mem_cons.mp hk with h1 | h2
  · subst h1; exact ha
  · exact h k (List.mem_keys_of_mem_keys_kerase h2)

/-- Every operation preserves the strict key bound `k < next_id`. -/
theorem bounded_applyOp (s : UsersState) (op : Op) (h : Bounded s) :
    Bounded (applyOp s op) := by
  cases op with
  | create p =>
    exact bounded_insert s.next_id _ (Nat.lt_succ_self _)
      (fun k hk => Nat.lt_succ_of_lt (h k hk))
  | get i => exact h
  | list => exact h
  | update i u =>
    unfold Bounded
    cases hl : s.users.lookup i with
    | none => simp only [applyOp, UsersState.update_user, hl]; exact h
    | some cur =>
      have hi : i ∈ s.users.keys := by
        have hsome : (s.users.lookup i).isSome := by rw [hl]; rfl
        exact AList.mem_keys.mp (AList.lookup_isSome.mp hsome)
      simp only [applyOp, UsersState.update_user, hl]
      exact bounded_insert i _ (h i hi) h
  | delete i =>
    unfold Bounded
    intro k hk
    exact h k (List.mem_keys_of_mem_keys_kerase hk)

/-- A predicate preserved by every operation holds after any run. -/
theorem invariant_runFrom {P : UsersState → Prop}
    (hstep : ∀ s op, P s → P (applyOp s op)) :
    ∀ (ops : List Op) (s : UsersState), P s → P (runFrom s ops)
  | [], _, h => h
  | op :: rest, s, h => invariant_runFrom hstep rest (applyOp s op) (hstep s op h)

/-- Every reachable state is key-coherent. -/
theorem reachable_coherent {s : UsersState} (hs : Reachable s) : Coherent s := by
  obtain ⟨ops, rfl⟩ := hs
  exact invariant_runFrom coherent_applyOp ops UsersState.new (fun e he => nomatch he)

/-- Every reachable state satisfies the strict key bound. -/
theorem reachable_bounded {s : UsersState} (hs : Reachable s) : Bounded s := by
  obtain ⟨ops, rfl⟩ := hs
  exact invariant_runFrom bounded_applyOp ops UsersState.new (fun k hk => nomatch hk)

/-- Every identifier returned by a create inside `ops` is at least the counter at the start. -/
theorem createdIds_lower_bound :
    ∀ (ops : List Op) (s : UsersState) (x : Nat), x ∈ createdIds s ops → s.next_id ≤ x := by
  intro ops
  induction ops with
  | nil => intro s x hx; cases hx
  | cons op rest ih =>
    intro s x hx
    cases op with
    | create p =>
      simp only [createdIds] at hx
      rcases List.mem_cons.mp hx with h1 | h2
      · subst h1; exact Nat.le_refl _
      · exact Nat.le_trans (Nat.le_succ _) (ih (s.create_user p).2 x h2)
    | get i =>
      exact ih _ x (by simpa only [createdIds] using hx)
    | list =>
      exact ih _ x (by simpa only [createdIds] using hx)
    | update i u =>
      exact Nat.le_trans (applyOp_next_id_mono s (Op.update i u))
        (ih _ x (by simpa only [createdIds] using hx))
    | delete i =>
      exact Nat.le_trans (applyOp_next_id_mono s (Op.delete i))
        (ih (applyOp s (Op.delete i)) x (by simpa only [createdIds] using hx))

/-- The identifiers returned by the creates of a run are strictly increasing. -/
theorem createdIds_pairwise_lt :
    ∀ (ops : List Op) (s : UsersState), (createdIds s ops).Pairwise (fun a b => a < b) := by
  intro ops
  induction ops with
  | nil => intro s; exact List.Pairwise.nil
  | cons op rest ih =>
    intro s
    cases op with
    | create p =>
      simp only [createdIds]
      refine List.pairwise_cons.mpr ⟨?_, ih _⟩
      intro b hb
      exact createdIds_lower_bound rest (s.create_user p).2 b hb
    | get i => simpa only [createdIds] using ih _
    | list => simpa only [createdIds] using ih _
    | update i u => simpa only [createdIds] using ih _
    | delete i => simpa only [createdIds] using ih _

/-- C1: in any reachable state holding a live record `R` at identifier `id`, a partial
update `U` returns the record whose identifier is `id` and whose fields are `R`'s fields
with each field present in `U` overwriting the old one (absent fields carried over),
and afterwards the store maps `id` to exactly that record. -/
theorem update_user_partial_update (s : UsersState) (id : Nat) (R : User) (U : UserUpdate)
    (hs : Reachable s) (h : s.get_user id = some R) :
    (s.update_user id U).1 = some ⟨id, U.name.getD R.name, U.email.getD R.email⟩
    ∧ (s.update_user id U).2.get_user id =
        some ⟨id, U.name.getD R.name, U.email.getD R.email⟩ := by
  have hco := reachable_coherent hs
  have hl : s.users.lookup id = some R := h
  have hid : R.id = id :=
    hco _ (AList.mem_lookup_iff.mp (by rw [Option.mem_def, hl]))
  constructor
  · simp only [UsersState.update_user, hl, hid]
  · simp only [UsersState.update_user, UsersState.get_user, hl, hid, AList.lookup_insert]

/-- C1 witness: updating the name of the created user 0 keeps the untouched email. -/
theorem update_user_partial_update_witness :
    (aliceState.update_user 0 ⟨some "Bob", none⟩).1 = some ⟨0, "Bob", "a@x.com"⟩
    ∧ (aliceState.update_user 0 ⟨some "Bob", none⟩).2.get_user 0 =
        some ⟨0, "Bob", "a@x.com"⟩ :=
  update_user_partial_update aliceState 0 ⟨0, "Alice", "a@x.com"⟩ ⟨some "Bob", none⟩
    ⟨[Op.create ⟨"Alice", "a@x.com"⟩], rfl⟩ (by decide)

/-- C2: across any operation sequence on a fresh store — deletes included — the
identifiers returned by the create operations are pairwise distinct. -/
theorem created_ids_nodup (ops : List Op) : (createdIds UsersState.new ops).Nodup :=
  List.Pairwise.imp (fun h => Nat.ne_of_lt h) (createdIds_pairwise_lt ops UsersState.new)

/-- C3: `create_user` is total, returns the record built from the supplied fields at the
current counter value, inserts it, and advances the counter by exactly one; on a fresh
store the counter is zero, so the first create returns identifier 0. -/
theorem create_user_spec (s : UsersState) (p : ProtoUser) :
    (s.create_user p).1 = ⟨s.next_id, p.name, p.email⟩
    ∧ (s.create_user p).2.next_id = s.next_id + 1
    ∧ (s.create_user p).2.get_user s.next_id = some (s.create_user p).1
    ∧ UsersState.new.next_id = 0
    ∧ (UsersState.new.create_user p).1.id = 0 := by
  refine ⟨rfl, rfl, ?_, rfl, rfl⟩
  exact AList.lookup_insert s.users

/-- C4: when no live record exists at `id`, `get_user`, `update_user` and `delete_user`
all signal the absence as the first-class negative result `none`. -/
theorem not_found_on_absent (s : UsersState) (id : Nat) (U : UserUpdate)
    (h : s.get_user id = none) :
    s.get_user id = none
    ∧ (s.update_user id U).1 = none
    ∧ (s.delete_user id).1 = none := by
  refine ⟨h, ?_, h⟩
  simp only [UsersState.update_user, show s.users.lookup id = none from h]

/-- C4 witness: on the fresh store every operation on identifier 0 reports not-found. -/
theorem not_found_on_absent_witness :
    UsersState.new.get_user 0 = none
    ∧ (UsersState.new.update_user 0 ⟨none, none⟩).1 = none
    ∧ (UsersState.new.delete_user 0).1 = none :=
  not_found_on_absent UsersState.new 0 ⟨none, none⟩ (by decide)

/-- C5: deleting a live record removes and returns it, and afterwards both `get_user`
and `update_user` on that identifier signal not-found. -/
theorem delete_is_terminal (s : UsersState) (id : Nat) (R : User) (U : UserUpdate)
    (h : s.get_user id = some R) :
    (s.delete_user id).1 = some R
    ∧ (s.delete_user id).2.get_user id = none
    ∧ ((s.delete_user id).2.update_user id U).1 = none := by
  refine ⟨h, ?_, ?_⟩
  · exact AList.lookup_erase id s.users
  · simp only [UsersState.update_user, UsersState.delete_user, AList.lookup_erase]

/-- C5 witness: deleting user 0 returns it and leaves get and update reporting not-found. -/
theorem delete_is_terminal_witness :
    (aliceState.delete_user 0).1 = some ⟨0, "Alice", "a@x.com"⟩
    ∧ (aliceState.delete_user 0).2.get_user 0 = none
    ∧ ((aliceState.delete_user 0).2.update_user 0 ⟨some "Bob", none⟩).1 = none :=
  delete_is_terminal aliceState 0 ⟨0, "Alice", "a@x.com"⟩ ⟨some "Bob", none⟩ (by decide)

/-- C6: in any reachable state the set of identifiers of the records returned by
`get_users` equals the set of identifiers at which `get_user` succeeds. -/
theorem list_reflects_store (s : UsersState) (hs : Reachable s) (id : Nat) :
    id ∈ s.get_users.map User.id ↔ (s.get_user id).isSome = true := by
  have hco := reachable_coherent hs
  have hkeys : s.get_users.map User.id = s.users.keys := by
    unfold UsersState.get_users
    rw [List.map_map]
    exact List.map_congr_left (fun e he => hco e he)
  rw [hkeys]
  constructor
  · intro hk
    exact AList.lookup_isSome.mpr (AList.mem_keys.mpr hk)
  · intro hk
    exact AList.mem_keys.mp (AList.lookup_isSome.mp hk)

/-- C6 witness: in the one-user state, identifier 0 is listed and gettable. -/
theorem list_reflects_store_witness :
    0 ∈ aliceState.get_users.map User.id ↔ (aliceState.get_user 0).isSome = true :=
  list_reflects_store aliceState ⟨[Op.create ⟨"Alice", "a@x.com"⟩], rfl⟩ 0

/-- C9: in every reachable state the counter strictly dominates every identifier present
in the map, and no operation ever decreases the counter. -/
theorem next_id_invariant (s : UsersState) (op : Op) (hs : Reachable s) :
    (∀ k ∈ s.users.keys, k < s.next_id) ∧ s.next_id ≤ (applyOp s op).next_id :=
  ⟨reachable_bounded hs, applyOp_next_id_mono s op⟩

/-- C9 witness: in the one-user state the counter 1 dominates the sole key 0 and is not
decreased by a further operation. -/
theorem next_id_invariant_witness :
    0 < aliceState.next_id ∧ aliceState.next_id ≤ (applyOp aliceState Op.list).next_id :=
  ⟨(next_id_invariant aliceState Op.list ⟨[Op.create ⟨"Alice", "a@x.com"⟩], rfl⟩).1
      0 (by decide),
    (next_id_invariant aliceState Op.list ⟨[Op.create ⟨"Alice", "a@x.com"⟩], rfl⟩).2⟩

/-- C10: `get` and `list` leave the state untouched; `update_user` and `delete_user`
modify at most the entry at their identifier and never the counter; and when they signal
not-found the whole state is unchanged. -/
theorem frame_properties (s : UsersState) (id j : Nat) (U : UserUpdate) :
    applyOp s (Op.get id) = s
    ∧ applyOp s Op.list = s
    ∧ (j ≠ id → (s.update_user id U).2.get_user j = s.get_user j)
    ∧ (j ≠ id → (s.delete_user id).2.get_user j = s.get_user j)
    ∧ (s.update_user id U).2.next_id = s.next_id
    ∧ (s.delete_user id).2.next_id = s.next_id
    ∧ (s.get_user id = none → (s.update_user id U).2 = s)
    ∧ (s.get_user id = none → (s.delete_user id).2 = s) := by
  refine ⟨rfl, rfl, ?_, ?_, update_user_snd_next_id s id U, rfl, ?_, ?_⟩
  · intro hj
    cases hl : s.users.lookup id with
    | none => simp only [UsersState.update_user, hl]
    | some cur =>
      simp only [UsersState.update_user, UsersState.get_user, hl,
        AList.lookup_insert_ne hj]
  · intro hj
    exact AList.lookup_erase_ne hj
  · intro h0
    simp only [UsersState.update_user, show s.users.lookup id = none from h0]
  · intro h0
    have hid : id ∉ s.users := by
      intro hmem
      have := AList.lookup_isSome.mpr hmem
      rw [show s.users.lookup id = none from h0] at this
      cases this
    have hsame : s.users.erase id = s.users :=
      AList.ext (List.kerase_of_not_mem_keys (fun hk => hid (AList.mem_keys.mpr hk)))
    show (⟨s.users.erase id, s.next_id⟩ : UsersState) = s
    rw [hsame]

/-- C10 witness: frame facts instantiated in the one-user state — a read leaves the state
unchanged, an update of user 0 does not affect identifier 1, and a failing update or
delete at the absent identifier 3 leaves the state exactly as it was. -/
theorem frame_properties_witness :
    applyOp aliceState (Op.get 0) = aliceState
    ∧ (aliceState.update_user 0 ⟨none, none⟩).2.get_user 1 = aliceState.get_user 1
    ∧ (aliceState.update_user 3 ⟨none, none⟩).2 = aliceState
    ∧ (aliceState.delete_user 3).2 = aliceState :=
  ⟨(frame_properties aliceState 0 1 ⟨none, none⟩).1,
    (frame_properties aliceState 0 1 ⟨none, none⟩).2.2.1 (by decide),
    (frame_properties aliceState 3 1 ⟨none, none⟩).2.2.2.2.2.2.1 (by decide),
    (frame_properties aliceState 3 1 ⟨none, none⟩).2.2.2.2.2.2.2 (by decide)⟩

/-- C7 counterexample: the not-found body produced at every call site is the literal
twelve-character text with the unquoted key and the quoted empty message, so its length
is 12 and not 8 as the claim states. -/
theorem error_body_not_eight_chars :
    (MissingUserError.into_response ⟨""⟩).body = "\x7bmessage:\"\"\x7d"
    ∧ (MissingUserError.into_response ⟨""⟩).body.length = 12
    ∧ ¬(MissingUserError.into_response ⟨""⟩).body.length = 8 := by
  refine ⟨by decide, by decide, by decide⟩

/-- C7 (amended): a routed get, update, or delete that targets an absent identifier
produces the `MissingUserError` with the empty message at every call site, and its
rendering has HTTP status 404 and the twelve-character JSON-ish body in which the key
`message` is not quoted. -/
theorem not_found_rendering (s : UsersState) (id : Nat) (U : UserUpdate)
    (h : s.get_user id = none) :
    get_user_route s id = Except.error ⟨""⟩
    ∧ (update_user_route s id U).1 = Except.error ⟨""⟩
    ∧ (delete_user_route s id).1 = Except.error ⟨""⟩
    ∧ (MissingUserError.into_response ⟨""⟩).status = 404
    ∧ (MissingUserError.into_response ⟨""⟩).contentType = "application/json"
    ∧ (MissingUserError.into_response ⟨""⟩).body = "\x7bmessage:\"\"\x7d"
    ∧ (MissingUserError.into_response ⟨""⟩).body.length = 12 := by
  have hu : (s.update_user id U).1 = none := by
    simp only [UsersState.update_user, show s.users.lookup id = none from h]
  refine ⟨?_, ?_, ?_, rfl, rfl, by decide, by decide⟩
  · simp only [get_user_route, h]
  · simp only [update_user_route, hu]
  · simp only [delete_user_route, UsersState.delete_user,
      show s.users.lookup id = none from h]

/-- C7 witness: the three routes at the absent identifier 0 of the fresh store. -/
theorem not_found_rendering_witness :
    get_user_route UsersState.new 0 = Except.error ⟨""⟩
    ∧ (update_user_route UsersState.new 0 ⟨none, none⟩).1 = Except.error ⟨""⟩
    ∧ (delete_user_route UsersState.new 0).1 = Except.error ⟨""⟩
    ∧ (MissingUserError.into_response ⟨""⟩).status = 404
    ∧ (MissingUserError.into_response ⟨""⟩).contentType = "application/json"
    ∧ (MissingUserError.into_response ⟨""⟩).body = "\x7bmessage:\"\"\x7d"
    ∧ (MissingUserError.into_response ⟨""⟩).body.length = 12 :=
  not_found_rendering UsersState.new 0 ⟨none, none⟩ (by decide)

/-- C8: the database-backed update and the in-memory update compute the same record
transformation — on any live row and any combination of present and absent fields, each
produces exactly the record whose identifier is the old one and whose every field is the
spec's field merge of the supplied value over the old value. -/
theorem update_refines_coalesce
    (s : UsersState) (id : Nat) (U : UserUpdate) (cur : User)
    (row : TodoRecord) (t d : Option String) (dn : Option Bool)
    (h : s.get_user id = some cur) :
    Todo.from_record (coalesceUpdateRow row t d dn) =
      ⟨row.id, specMergeField t row.title, specMergeField d row.description,
        specMergeField dn row.done⟩
    ∧ (s.update_user id U).1 =
      some ⟨cur.id, specMergeField U.name cur.name, specMergeField U.email cur.email⟩ := by
  constructor
  · cases t <;> cases d <;> cases dn <;> rfl
  · simp only [UsersState.update_user, show s.users.lookup id = some cur from h]
    cases hn : U.name <;> cases he : U.email <;> rfl

/-- C8 witness: a concrete live user and a concrete row, updating one present field and
leaving the others absent, produce the spec merge on both variants. -/
theorem update_refines_coalesce_witness :
    Todo.from_record (coalesceUpdateRow ⟨7, "title", "desc", false, 0⟩ none none (some true)) =
      ⟨7, specMergeField none "title", specMergeField none "desc",
        specMergeField (some true) false⟩
    ∧ (aliceState.update_user 0 ⟨some "Bob", none⟩).1 =
      some ⟨0, specMergeField (some "Bob") "Alice", specMergeField none "a@x.com"⟩ :=
  update_refines_coalesce aliceState 0 ⟨some "Bob", none⟩ ⟨0, "Alice", "a@x.com"⟩
    ⟨7, "title", "desc", false, 0⟩ none none (some true) (by decide)
